import Mathlib

/-!
Shallow embedding of the Postgres schema updater (src/postgres-update.py).

Text is modelled as `List Char`; a schema file is modelled as its list of
lines (the caller performs `splitlines`).  The statement splitter
(`extract_statements`), the redundancy filter (`filter_statements` with its
regex-based name extraction), the safety rewriter
(`modify_statements_for_safety`), the catalog snapshot builder
(`get_existing_objects`, with the six catalog queries as an injected
collaborator), and the apply loop (`apply_loop` / `apply_phase`, with the
per-statement execution collaborator injected as `Nat → Bool`) are
translated directly from the Python source.
-/

/-- Python `str.isspace` characters relevant to `str.strip` (ASCII range). -/
def isWS (c : Char) : Bool :=
  c == ' ' || c == '\t' || c == '\n' || c == '\r' || c == '\x0b' || c == '\x0c'

/-- Python `str.strip()` on a line. -/
def pyStrip (l : List Char) : List Char :=
  ((l.dropWhile isWS).reverse.dropWhile isWS).reverse

/-- Python `str.startswith`. -/
def isPrefixL : List Char → List Char → Bool
  | [], _ => true
  | _ :: _, [] => false
  | a :: as, b :: bs => a == b && isPrefixL as bs

/-- Python `pat in s` substring test. -/
def containsL (pat : List Char) : List Char → Bool
  | [] => pat.isEmpty
  | c :: cs => isPrefixL pat (c :: cs) || containsL pat cs

/-- Python `str.endswith`. -/
def endsWithL (pat l : List Char) : Bool :=
  isPrefixL pat.reverse l.reverse

/-- Python `str.replace` (all non-overlapping occurrences, left to right). -/
def replaceAllL (pat repl : List Char) : List Char → List Char
  | [] => []
  | c :: cs =>
    if isPrefixL pat (c :: cs) then
      repl ++ replaceAllL pat repl (List.drop (pat.length - 1) cs)
    else
      c :: replaceAllL pat repl cs
termination_by l => l.length
decreasing_by
  · simp [List.length_drop]; omega
  · simp

/-- ASCII reading of the regex character class backslash-w. -/
def isWordChar (c : Char) : Bool := c.isAlphanum || c == '_'

def kwCreate : List Char := "CREATE".data
def kwCreateSp : List Char := "CREATE ".data
def kwCreateIndex : List Char := "CREATE INDEX".data
def kwCreateIndexSp : List Char := "CREATE INDEX ".data
def kwCreateTable : List Char := "CREATE TABLE".data
def kwCreateTableSp : List Char := "CREATE TABLE ".data
def kwCreateFunction : List Char := "CREATE FUNCTION".data
def kwCreateOrReplaceFunction : List Char := "CREATE OR REPLACE FUNCTION".data
def kwCreateTrigger : List Char := "CREATE TRIGGER".data
def kwCreateTriggerSp : List Char := "CREATE TRIGGER ".data
def kwCreatePolicy : List Char := "CREATE POLICY".data
def kwCreatePolicySp : List Char := "CREATE POLICY ".data
def kwCreateType : List Char := "CREATE TYPE".data
def kwCreateTypeSp : List Char := "CREATE TYPE ".data
def kwCreateExtension : List Char := "CREATE EXTENSION".data
def kwIfNotExists : List Char := "IF NOT EXISTS".data
def kwIfNotExistsSp : List Char := "IF NOT EXISTS ".data
def kwPublicDot : List Char := "public.".data
def kwOrReplace : List Char := "OR REPLACE".data
def kwOrReplaceSp : List Char := "OR REPLACE ".data
def kwFunctionSp : List Char := "FUNCTION ".data
def kwOnSp : List Char := " ON ".data
def kwDashDash : List Char := "--".data
def kwSemi : List Char := ";".data
def kwMarker : List Char := "LANGUAGE plpgsql;".data
def kwAsEnum : List Char := "AS ENUM".data
def replIndex : List Char := "CREATE INDEX IF NOT EXISTS".data
def replTable : List Char := "CREATE TABLE IF NOT EXISTS".data
def replType : List Char := "CREATE TYPE IF NOT EXISTS".data
def replExtension : List Char := "CREATE EXTENSION IF NOT EXISTS".data

/-- A line survives the splitter's skip test: not blank, not a `--` comment. -/
def keepLine (l : List Char) : Bool :=
  !(l.isEmpty || isPrefixL kwDashDash l)

/-- A stripped line starts a function definition (the splitter's first test). -/
def isFuncStart (l : List Char) : Bool :=
  isPrefixL kwCreateOrReplaceFunction l || isPrefixL kwCreateFunction l

/-- Core loop of `extract_statements`: `acc` is `current_statement` (a list of
already-stripped kept lines), the Bool is `in_function_body`, the last
argument is the remaining raw input lines. -/
def exGo : List (List Char) → Bool → List (List Char) → List (List (List Char))
  | acc, _, [] => if acc.isEmpty then [] else [acc]
  | acc, inFunc, l₀ :: ls =>
    if keepLine (pyStrip l₀) then
      if isFuncStart (pyStrip l₀) then
        (if acc.isEmpty then [] else [acc]) ++ exGo [pyStrip l₀] true ls
      else if inFunc then
        if endsWithL kwMarker (pyStrip l₀) then
          (acc ++ [pyStrip l₀]) :: exGo [] false ls
        else
          exGo (acc ++ [pyStrip l₀]) true ls
      else if isPrefixL kwCreate (pyStrip l₀) then
        (if acc.isEmpty then [] else [acc]) ++ exGo [pyStrip l₀] false ls
      else if acc.isEmpty then
        exGo acc inFunc ls
      else if endsWithL kwSemi (pyStrip l₀) then
        (acc ++ [pyStrip l₀]) :: exGo [] false ls
      else
        exGo (acc ++ [pyStrip l₀]) inFunc ls
    else
      exGo acc inFunc ls

/-- Python `'\n'.join`. -/
def joinNL (lines : List (List Char)) : List Char :=
  List.intercalate (['\n']) lines

/-- `extract_statements` from the source: split the schema file (given as its
list of lines) into newline-joined statements. -/
def extract_statements (contentLines : List (List Char)) : List (List Char) :=
  (exGo [] false contentLines).map joinNL

/-- The stripped, non-blank, non-comment lines of the input, in order: the
lines the splitter actually processes. -/
def keptLines (ls : List (List Char)) : List (List Char) :=
  (ls.map pyStrip).filter keepLine

/-- Maximal run of word characters, requiring at least one (regex `\w+`). -/
def wordRun1 (r : List Char) : Option (List Char) :=
  let w := r.takeWhile isWordChar
  if w.isEmpty then none else some w

/-- Regex tail `(?:public\.)?(\w+)` with backtracking over the optional group. -/
def tailPub (r : List Char) : Option (List Char) :=
  (if isPrefixL kwPublicDot r then wordRun1 (r.drop kwPublicDot.length) else none) <|>
    wordRun1 r

/-- Regex tail `(?:IF NOT EXISTS )?(?:public\.)?(\w+)` with backtracking. -/
def tailINE (r : List Char) : Option (List Char) :=
  (if isPrefixL kwIfNotExistsSp r then tailPub (r.drop kwIfNotExistsSp.length) else none) <|>
    tailPub r

/-- `re.search` for a pattern that is a literal keyword followed by a tail:
try every start position left to right (leftmost match wins). -/
def reSearch (kw : List Char) (tl : List Char → Option α) : List Char → Option α
  | [] => none
  | c :: cs =>
    (if isPrefixL kw (c :: cs) then tl ((c :: cs).drop kw.length) else none) <|>
      reSearch kw tl cs

/-- Regex `CREATE INDEX (?:IF NOT EXISTS )?(?:public\.)?(\w+)`. -/
def extractIndexName (s : List Char) : Option (List Char) :=
  reSearch kwCreateIndexSp tailINE s

/-- Regex `CREATE TABLE (?:IF NOT EXISTS )?(?:public\.)?(\w+)`. -/
def extractTableName (s : List Char) : Option (List Char) :=
  reSearch kwCreateTableSp tailINE s

/-- Tail `FUNCTION (?:public\.)?(\w+)` after the literal / optional pieces. -/
def tailFunc (r : List Char) : Option (List Char) :=
  if isPrefixL kwFunctionSp r then tailPub (r.drop kwFunctionSp.length) else none

/-- Tail `(?:OR REPLACE )?FUNCTION (?:public\.)?(\w+)` with backtracking. -/
def tailOrReplaceFunc (r : List Char) : Option (List Char) :=
  (if isPrefixL kwOrReplaceSp r then tailFunc (r.drop kwOrReplaceSp.length) else none) <|>
    tailFunc r

/-- Regex `CREATE (?:OR REPLACE )?FUNCTION (?:public\.)?(\w+)`. -/
def extractFunctionName (s : List Char) : Option (List Char) :=
  reSearch kwCreateSp tailOrReplaceFunc s

/-- Regex `CREATE TRIGGER (?:public\.)?(\w+)`. -/
def extractTriggerName (s : List Char) : Option (List Char) :=
  reSearch kwCreateTriggerSp tailPub s

/-- Regex `CREATE TYPE (?:public\.)?(\w+)`. -/
def extractTypeName (s : List Char) : Option (List Char) :=
  reSearch kwCreateTypeSp tailPub s

/-- After `CREATE POLICY (?:public\.)?`: match `(\w+) ON (\w+)`.  The greedy
`\w+` cannot usefully backtrack (a shorter run would put a word character
where the literal space must match), so the maximal run is forced. -/
def polAfterName (r : List Char) : Option (List Char × List Char) :=
  let w := r.takeWhile isWordChar
  let rest := r.dropWhile isWordChar
  if w.isEmpty then none
  else if isPrefixL kwOnSp rest then
    match wordRun1 (rest.drop kwOnSp.length) with
    | some w2 => some (w, w2)
    | none => none
  else none

/-- Tail `(?:public\.)?(\w+) ON (\w+)` with backtracking over `public.`. -/
def tailPolicy (r : List Char) : Option (List Char × List Char) :=
  (if isPrefixL kwPublicDot r then polAfterName (r.drop kwPublicDot.length) else none) <|>
    polAfterName r

/-- Regex `CREATE POLICY (?:public\.)?(\w+) ON (\w+)`: policy name and table. -/
def extractPolicyMatch (s : List Char) : Option (List Char × List Char) :=
  reSearch kwCreatePolicySp tailPolicy s

/-- The per-category name sets built by `get_existing_objects`. -/
structure ExistingObjects where
  tables : List (List Char)
  functions : List (List Char)
  triggers : List (List Char)
  indexes : List (List Char)
  constraints : List (List Char)
  policies : List (List Char)
  types : List (List Char)

/-- The `skip` decision of `filter_statements` for one statement: the
`if/elif` dispatch on substring markers, then the regex lookup against the
matching snapshot category. -/
def skipStmt (stmt : List Char) (objs : ExistingObjects) : Bool :=
  if containsL kwCreateIndex stmt then
    match extractIndexName stmt with
    | some n => objs.indexes.contains n
    | none => false
  else if containsL kwCreateTable stmt then
    match extractTableName stmt with
    | some n => objs.tables.contains n
    | none => false
  else if containsL kwCreateFunction stmt || containsL kwCreateOrReplaceFunction stmt then
    match extractFunctionName stmt with
    | some n => objs.functions.contains n && !containsL kwOrReplace stmt
    | none => false
  else if containsL kwCreateTrigger stmt then
    match extractTriggerName stmt with
    | some n => objs.triggers.contains n
    | none => false
  else if containsL kwCreatePolicy stmt then
    match extractPolicyMatch stmt with
    | some p => objs.policies.contains p.fst
    | none => false
  else if containsL kwCreateType stmt then
    match extractTypeName stmt with
    | some n => objs.types.contains n
    | none => false
  else false

/-- `filter_statements` from the source: keep the statements not skipped. -/
def filter_statements (stmts : List (List Char)) (objs : ExistingObjects) :
    List (List Char) :=
  stmts.filter (fun s => !skipStmt s objs)

/-- The per-statement rewrite of `modify_statements_for_safety`. -/
def modifyStmt (stmt : List Char) : List Char :=
  if isPrefixL kwCreateIndex stmt && !containsL kwIfNotExists stmt then
    replaceAllL kwCreateIndex replIndex stmt
  else if isPrefixL kwCreateTable stmt && !containsL kwIfNotExists stmt then
    replaceAllL kwCreateTable replTable stmt
  else if isPrefixL kwCreateType stmt && !containsL kwIfNotExists stmt &&
      containsL kwAsEnum stmt then
    replaceAllL kwCreateType replType stmt
  else if containsL kwCreateExtension stmt && !containsL kwIfNotExists stmt then
    replaceAllL kwCreateExtension replExtension stmt
  else stmt

/-- `modify_statements_for_safety` from the source. -/
def modify_statements_for_safety (stmts : List (List Char)) : List (List Char) :=
  stmts.map modifyStmt

/-- The six catalog query results, as returned by the injected query-execution
collaborator (`None` models a failed `run_command`), each already split into
lines. -/
structure CatalogQueries where
  tablesQ : Option (List (List Char))
  functionsQ : Option (List (List Char))
  triggersQ : Option (List (List Char))
  indexesQ : Option (List (List Char))
  policiesQ : Option (List (List Char))
  typesQ : Option (List (List Char))

/-- Per-category parsing in `get_existing_objects`: on a successful query,
strip each output line and keep the non-empty ones; on failure, the empty
set. -/
def namesFrom : Option (List (List Char)) → List (List Char)
  | none => []
  | some lines => (lines.map pyStrip).filter (fun l => !l.isEmpty)

/-- `get_existing_objects` from the source: the dict starts with all seven
categories empty and six of them are filled from queries; `constraints` is
never updated. -/
def get_existing_objects (q : CatalogQueries) : ExistingObjects :=
  { tables := namesFrom q.tablesQ
    functions := namesFrom q.functionsQ
    triggers := namesFrom q.triggersQ
    indexes := namesFrom q.indexesQ
    constraints := []
    policies := namesFrom q.policiesQ
    types := namesFrom q.typesQ }

/-- The statement-execution loop of `apply_schema_updates`: one execution per
statement, in order, indexed by position; returns the execution trace
(statement, outcome) together with `success_count` and `error_count`. -/
def apply_loop (exec : Nat → Bool) : Nat → List (List Char) →
    List (List Char × Bool) × Nat × Nat
  | _, [] => ([], 0, 0)
  | i, s :: ss =>
    let ok := exec i
    let r := apply_loop exec (i + 1) ss
    ((s, ok) :: r.1, (if ok then r.2.1 + 1 else r.2.1, if ok then r.2.2 else r.2.2 + 1))

/-- Observable outcome of the apply phase of `apply_schema_updates`. -/
structure PhaseOutcome where
  success : Bool
  upToDate : Bool
  prompted : Bool
  backupAttempted : Bool
  attempts : Nat
  successes : Nat
  failures : Nat

/-- The apply phase of `apply_schema_updates` after the safe statement list
has been computed (source lines 272-317): empty list short-circuits as "up to
date"; otherwise prompt, back up, then run the loop; overall result is True
when `error_count == 0`, else `success_count > 0`. -/
def apply_phase (safe : List (List Char)) (confirm : Bool) (backupOk : Bool)
    (exec : Nat → Bool) : PhaseOutcome :=
  if safe.isEmpty then
    { success := true, upToDate := true, prompted := false, backupAttempted := false,
      attempts := 0, successes := 0, failures := 0 }
  else if !confirm then
    { success := false, upToDate := false, prompted := true, backupAttempted := false,
      attempts := 0, successes := 0, failures := 0 }
  else if !backupOk then
    { success := false, upToDate := false, prompted := true, backupAttempted := true,
      attempts := 0, successes := 0, failures := 0 }
  else
    let r := apply_loop exec 0 safe
    { success := if r.2.2 = 0 then true else decide (0 < r.2.1),
      upToDate := false, prompted := true, backupAttempted := true,
      attempts := r.1.length, successes := r.2.1, failures := r.2.2 }

/-- Modelled from the spec: the statement `kind` of the data model (spec
section 3), inferred from the statement's leading `CREATE` shape; the source
has no explicit kind field. -/
inductive SKind where
  | createTable
  | createIndex
  | createFunction
  | createTrigger
  | createPolicy
  | createType
  | createExtension
  | other
deriving DecidableEq

/-- Modelled from the spec: kind inference by leading keyword. -/
def specKind (s : List Char) : SKind :=
  if isFuncStart s then .createFunction
  else if isPrefixL kwCreateTable s then .createTable
  else if isPrefixL kwCreateIndex s then .createIndex
  else if isPrefixL kwCreateTrigger s then .createTrigger
  else if isPrefixL kwCreatePolicy s then .createPolicy
  else if isPrefixL kwCreateType s then .createType
  else if isPrefixL kwCreateExtension s then .createExtension
  else .other

/-- Snapshot categories. -/
inductive Cat where
  | tables
  | functions
  | triggers
  | indexes
  | constraints
  | policies
  | types
deriving DecidableEq

/-- Category accessor. -/
def catGet (o : ExistingObjects) : Cat → List (List Char)
  | .tables => o.tables
  | .functions => o.functions
  | .triggers => o.triggers
  | .indexes => o.indexes
  | .constraints => o.constraints
  | .policies => o.policies
  | .types => o.types

/-- The snapshot category whose membership test the `filter_statements`
dispatch consults for a given statement text: the first substring marker that
matches, in the source's `if/elif` order. -/
def consultedCategory (stmt : List Char) : Option Cat :=
  if containsL kwCreateIndex stmt then some .indexes
  else if containsL kwCreateTable stmt then some .tables
  else if containsL kwCreateFunction stmt || containsL kwCreateOrReplaceFunction stmt then
    some .functions
  else if containsL kwCreateTrigger stmt then some .triggers
  else if containsL kwCreatePolicy stmt then some .policies
  else if containsL kwCreateType stmt then some .types
  else none

/-- The five filter kinds of claim C1 (FUNCTION has its own rule, C5). -/
def filterKinds : List SKind :=
  [.createTable, .createIndex, .createTrigger, .createPolicy, .createType]

/-- Leading keyword of each non-function kind. -/
def kindKW : SKind → List Char
  | .createTable => kwCreateTable
  | .createIndex => kwCreateIndex
  | .createFunction => kwCreateFunction
  | .createTrigger => kwCreateTrigger
  | .createPolicy => kwCreatePolicy
  | .createType => kwCreateType
  | .createExtension => kwCreateExtension
  | .other => []

/-- The dispatch markers that `filter_statements` tests before reaching the
branch belonging to the given kind. -/
def markersBefore : SKind → List (List Char)
  | .createIndex => []
  | .createTable => [kwCreateIndex]
  | .createFunction => [kwCreateIndex, kwCreateTable]
  | .createTrigger => [kwCreateIndex, kwCreateTable, kwCreateFunction, kwCreateOrReplaceFunction]
  | .createPolicy =>
    [kwCreateIndex, kwCreateTable, kwCreateFunction, kwCreateOrReplaceFunction, kwCreateTrigger]
  | .createType =>
    [kwCreateIndex, kwCreateTable, kwCreateFunction, kwCreateOrReplaceFunction,
      kwCreateTrigger, kwCreatePolicy]
  | _ => []

/-- The target-name extraction each kind's branch performs (for POLICY, the
first capture group). -/
def extractOf : SKind → List Char → Option (List Char)
  | .createIndex, s => extractIndexName s
  | .createTable, s => extractTableName s
  | .createFunction, s => extractFunctionName s
  | .createTrigger, s => extractTriggerName s
  | .createPolicy, s => (extractPolicyMatch s).map Prod.fst
  | .createType, s => extractTypeName s
  | _, _ => none

/-- The snapshot category belonging to each kind (spec section 3 table). -/
def catOf : SKind → Cat
  | .createTable => .tables
  | .createIndex => .indexes
  | .createFunction => .functions
  | .createTrigger => .triggers
  | .createPolicy => .policies
  | .createType => .types
  | _ => .constraints

/-- Number of processed lines that begin a `CREATE` block. -/
def countCreateLines (ls : List (List Char)) : Nat :=
  List.countP (fun l => isPrefixL kwCreate l) ls

/-- Concrete inputs used by witnesses and counterexamples below. -/
def c6stmts : List (List Char) :=
  [("CREATE TABLE w6 (x int);").data, ("CREATE BROKEN w6b;").data]

def c6exec : Nat → Bool := fun i => i == 0

def c1s : List Char := ("CREATE TABLE t1 (a int) -- CREATE INDEX i1").data

def c1o : ExistingObjects := ⟨[], [], [], [("i1").data], [], [], []⟩

def c1ws : List Char := ("CREATE INDEX widx ON wt (c);").data

def c1wo : ExistingObjects := ⟨[], [], [], [("widx").data], [], [], []⟩

def c5s : List Char :=
  ("CREATE OR REPLACE FUNCTION f5() AS $$ CREATE TABLE tmp5 (y int); $$ LANGUAGE plpgsql;").data

def c5o : ExistingObjects := ⟨[("tmp5").data], [], [], [], [], [], []⟩

def c5ws : List Char := ("CREATE FUNCTION g5() RETURNS int AS $$ SELECT 1; $$ LANGUAGE plpgsql;").data

def c5wo : ExistingObjects := ⟨[], [("g5").data], [], [], [], [], []⟩

def c8s : List Char := ("CREATE TABLE t8 (n int) -- CREATE INDEX i8").data

def c8oIdx : ExistingObjects := ⟨[], [], [], [("i8").data], [], [], []⟩

def c8oTbl : ExistingObjects := ⟨[("t8").data], [], [], [], [], [], []⟩

def c8ws : List Char := ("CREATE POLICY p8 ON t8u USING (true)").data

def c8wo1 : ExistingObjects := ⟨[("zz").data], [], [], [], [("k").data], [("p8").data], []⟩

def c8wo2 : ExistingObjects := ⟨[], [("ff").data], [], [], [], [("p8").data], []⟩

def c2lines : List (List Char) :=
  [("CREATE FUNCTION f2()").data, ("CREATE TABLE t2x (x int);").data]

def c2wlines : List (List Char) :=
  [("CREATE TABLE a2 (x int);").data, ("CREATE INDEX b2 ON a2 (x);").data]

def c3wlines : List (List Char) :=
  [("CREATE FUNCTION f3() RETURNS void AS $$").data, ("").data, ("-- body comment").data,
    ("BEGIN").data, ("  x := 1;").data, ("END;").data, ("$$ LANGUAGE plpgsql;").data]

def c3k0 : List Char := ("CREATE FUNCTION f3() RETURNS void AS $$").data

def c3rest : List (List Char) :=
  [("BEGIN").data, ("x := 1;").data, ("END;").data, ("$$ LANGUAGE plpgsql;").data]

def c7lines : List (List Char) :=
  [("CREATE TABLE t7 (").data, ("x int);").data, ("INSERT INTO t7 VALUES (1);").data]

theorem containsL_nil_pat (s : List Char) : containsL [] s = true := by
  cases s <;> simp [containsL, isPrefixL]

theorem isPrefixL_append_right :
    ∀ (p s t : List Char), isPrefixL p s = true → isPrefixL p (s ++ t) = true := by
  intro p
  induction p with
  | nil => intro s t _; cases s ++ t <;> simp [isPrefixL]
  | cons a as ih =>
    intro s t h
    cases s with
    | nil => simp [isPrefixL] at h
    | cons b bs =>
      simp [isPrefixL] at h ⊢
      exact ⟨h.1, ih bs t h.2⟩

theorem containsL_of_isPrefixL {p s : List Char} (h : isPrefixL p s = true) :
    containsL p s = true := by
  cases s with
  | nil =>
    cases p with
    | nil => simp [containsL]
    | cons a as => simp [isPrefixL] at h
  | cons c cs => simp [containsL, h]

theorem containsL_append_of_left :
    ∀ (a b p : List Char), containsL p a = true → containsL p (a ++ b) = true := by
  intro a
  induction a with
  | nil =>
    intro b p h
    simp [containsL, List.isEmpty_iff] at h
    subst h
    exact containsL_nil_pat b
  | cons x xs ih =>
    intro b p h
    simp [containsL] at h ⊢
    rcases h with h | h
    · exact Or.inl (isPrefixL_append_right p (x :: xs) b h)
    · exact Or.inr (ih b p h)

theorem contains_replaceAllL (q bigpat repl : List Char) (hbp : bigpat ≠ [])
    (hq : containsL q repl = true) :
    ∀ s, containsL bigpat s = true → containsL q (replaceAllL bigpat repl s) = true := by
  intro s
  induction s with
  | nil =>
    intro h
    simp [containsL, List.isEmpty_iff, hbp] at h
  | cons c cs ih =>
    intro h
    by_cases hp : isPrefixL bigpat (c :: cs) = true
    · rw [replaceAllL, if_pos hp]
      exact containsL_append_of_left repl _ q hq
    · rw [replaceAllL, if_neg hp]
      simp [containsL, hp] at h
      have hrec := ih h
      simp [containsL, hrec]

theorem modifyStmt_marks_or_fixes (s : List Char) :
    modifyStmt s = s ∨ containsL kwIfNotExists (modifyStmt s) = true := by
  unfold modifyStmt
  split
  · next hc =>
    refine Or.inr ?_
    simp only [Bool.and_eq_true] at hc
    exact contains_replaceAllL kwIfNotExists kwCreateIndex replIndex (by decide) (by decide)
      s (containsL_of_isPrefixL hc.1)
  · split
    · next hc =>
      refine Or.inr ?_
      simp only [Bool.and_eq_true] at hc
      exact contains_replaceAllL kwIfNotExists kwCreateTable replTable (by decide) (by decide)
        s (containsL_of_isPrefixL hc.1)
    · split
      · next hc =>
        refine Or.inr ?_
        simp only [Bool.and_eq_true] at hc
        exact contains_replaceAllL kwIfNotExists kwCreateType replType (by decide) (by decide)
          s (containsL_of_isPrefixL hc.1.1)
      · split
        · next hc =>
          refine Or.inr ?_
          simp only [Bool.and_eq_true] at hc
          exact contains_replaceAllL kwIfNotExists kwCreateExtension replExtension (by decide)
            (by decide) s hc.1
        · exact Or.inl rfl

theorem modifyStmt_id_of_guard (s : List Char) (h : containsL kwIfNotExists s = true) :
    modifyStmt s = s := by
  unfold modifyStmt
  simp [h]

theorem modifyStmt_idem (s : List Char) : modifyStmt (modifyStmt s) = modifyStmt s := by
  rcases modifyStmt_marks_or_fixes s with h | h
  · rw [h, h]
  · exact modifyStmt_id_of_guard _ h

/-- C4: `modify_statements_for_safety` is idempotent — applying it twice to
any list of statements yields exactly the same list of texts as applying it
once (each rule inserts the guard text `IF NOT EXISTS`, whose presence
disables every rule on the second pass). -/
theorem claim_C4_modify_idempotent (stmts : List (List Char)) :
    modify_statements_for_safety (modify_statements_for_safety stmts) =
      modify_statements_for_safety stmts := by
  unfold modify_statements_for_safety
  rw [List.map_map]
  apply List.map_congr_left
  intro s _
  exact modifyStmt_idem s

/-- C9: on an empty filtered-and-rewritten statement list the apply phase is
a no-op success — it reports the schema as already up to date, returns
success, attempts zero executions, shows no confirmation prompt and attempts
no backup, for every confirmation answer, backup outcome and execution
collaborator. -/
theorem claim_C9_empty_list_noop (confirm backupOk : Bool) (exec : Nat → Bool) :
    apply_phase [] confirm backupOk exec =
      { success := true, upToDate := true, prompted := false, backupAttempted := false,
        attempts := 0, successes := 0, failures := 0 } := rfl

/-- C10: the snapshot's `constraints` category is inert — `get_existing_objects`
always returns it empty, and `filter_statements` gives identical output on any
two snapshots that differ only in their `constraints` set. -/
theorem claim_C10_constraints_inert (q : CatalogQueries) (stmts : List (List Char))
    (o : ExistingObjects) (cs : List (List Char)) :
    (get_existing_objects q).constraints = [] ∧
      filter_statements stmts { o with constraints := cs } = filter_statements stmts o :=
  ⟨rfl, rfl⟩

theorem apply_loop_trace (exec : Nat → Bool) :
    ∀ (ss : List (List Char)) (i : Nat), ((apply_loop exec i ss).1.map Prod.fst) = ss := by
  intro ss
  induction ss with
  | nil => intro i; rfl
  | cons s ss ih => intro i; simp [apply_loop, ih (i + 1)]

theorem apply_loop_counts (exec : Nat → Bool) :
    ∀ (ss : List (List Char)) (i : Nat),
      (apply_loop exec i ss).2.1 + (apply_loop exec i ss).2.2 = ss.length := by
  intro ss
  induction ss with
  | nil => intro i; rfl
  | cons s ss ih =>
    intro i
    have hih := ih (i + 1)
    by_cases h : exec i = true <;> simp [apply_loop, h] <;> omega

/-- C6: the apply loop never stops early — for every non-empty statement list
and every execution collaborator in which some statement fails, every
statement is attempted exactly once, in list order (the trace equals the
input list), the success and failure counts sum to the list length, and the
run is reported as an overall success iff at least one statement succeeded. -/
theorem claim_C6_no_early_stop (stmts : List (List Char)) (exec : Nat → Bool)
    (hne : stmts ≠ []) (hfail : ∃ i, i < stmts.length ∧ exec i = false) :
    ((apply_loop exec 0 stmts).1.map Prod.fst = stmts) ∧
      ((apply_loop exec 0 stmts).1.length = stmts.length) ∧
      ((apply_loop exec 0 stmts).2.1 + (apply_loop exec 0 stmts).2.2 = stmts.length) ∧
      ((apply_phase stmts true true exec).success = true ↔ 0 < (apply_loop exec 0 stmts).2.1) := by
  have htr := apply_loop_trace exec stmts 0
  have hct := apply_loop_counts exec stmts 0
  refine ⟨htr, ?_, hct, ?_⟩
  · calc (apply_loop exec 0 stmts).1.length
        = ((apply_loop exec 0 stmts).1.map Prod.fst).length := (List.length_map _ _).symm
      _ = stmts.length := by rw [htr]
  · have hemp : stmts.isEmpty = false := by
      cases stmts with
      | nil => exact absurd rfl hne
      | cons a as => rfl
    have hlen : 0 < stmts.length := by
      cases stmts with
      | nil => exact absurd rfl hne
      | cons a as => simp
    rw [apply_phase, if_neg (by simp [hemp])]
    simp only [Bool.not_true, Bool.false_eq_true, if_false]
    by_cases hec : (apply_loop exec 0 stmts).2.2 = 0
    · simp only [hec, if_pos rfl]
      constructor
      · intro _; omega
      · intro _; rfl
    · simp only [if_neg hec]
      simp [decide_eq_true_iff]

/-- Witness for C6 at a concrete two-statement list where the second
execution fails: both statements attempted in order, counts sum to 2, and
the run counts as an overall success because the first statement succeeded. -/
theorem claim_C6_witness :
    (c6stmts ≠ []) ∧ (1 < c6stmts.length ∧ c6exec 1 = false) ∧
      (((apply_loop c6exec 0 c6stmts).1.map Prod.fst = c6stmts) ∧
        ((apply_loop c6exec 0 c6stmts).1.length = c6stmts.length) ∧
        ((apply_loop c6exec 0 c6stmts).2.1 + (apply_loop c6exec 0 c6stmts).2.2 =
          c6stmts.length) ∧
        ((apply_phase c6stmts true true c6exec).success = true ↔
          0 < (apply_loop c6exec 0 c6stmts).2.1)) := by
  refine ⟨by decide, ⟨by decide, by decide⟩, ?_⟩
  exact claim_C6_no_early_stop c6stmts c6exec (by decide) ⟨1, by decide, by decide⟩

/-- C1 counterexample: a statement whose kind is TABLE (it begins with
`CREATE TABLE`) is dropped by `filter_statements` even though its extracted
table name `t1` is absent from the snapshot's tables category, because the
dispatch looks at the first substring marker anywhere in the text and the
trailing comment contains `CREATE INDEX i1` with `i1` present among the
indexes.  This refutes "if the name is absent from that category the
statement is never dropped". -/
theorem claim_C1_counterexample :
    specKind c1s = SKind.createTable ∧
      extractOf SKind.createTable c1s = some (("t1").data) ∧
      (catGet c1o (catOf SKind.createTable)).contains (("t1").data) = false ∧
      filter_statements [c1s] c1o = [] := by
  refine ⟨by decide, by decide, by decide, by decide⟩

/-- C1 amended: for every statement that begins with the keyword of one of
the kinds TABLE, INDEX, TRIGGER, POLICY, TYPE and whose text does not
contain any dispatch marker checked earlier in the filter's `if/elif` chain,
`filter_statements` drops the statement iff its extracted target name is
present in the corresponding snapshot category. -/
theorem claim_C1_amended (s : List Char) (o : ExistingObjects) (k : SKind)
    (hk : k ∈ filterKinds)
    (hpre : isPrefixL (kindKW k) s = true)
    (hm : ∀ m ∈ markersBefore k, containsL m s = false) :
    (skipStmt s o = true ↔
      ∃ n, extractOf k s = some n ∧ (catGet o (catOf k)).contains n = true) := by
  simp only [filterKinds, List.mem_cons, List.not_mem_nil, or_false] at hk
  rcases hk with rfl | rfl | rfl | rfl | rfl
  · -- createTable
    have h1 : containsL kwCreateIndex s = false := hm _ (by simp [markersBefore])
    have h2 : containsL kwCreateTable s = true :=
      containsL_of_isPrefixL (by simpa [kindKW] using hpre)
    cases hx : extractTableName s with
    | none => simp [skipStmt, h1, h2, hx, extractOf]
    | some n => simp [skipStmt, h1, h2, hx, extractOf, catOf, catGet]
  · -- createIndex
    have h1 : containsL kwCreateIndex s = true :=
      containsL_of_isPrefixL (by simpa [kindKW] using hpre)
    cases hx : extractIndexName s with
    | none => simp [skipStmt, h1, hx, extractOf]
    | some n => simp [skipStmt, h1, hx, extractOf, catOf, catGet]
  · -- createTrigger
    have h1 : containsL kwCreateIndex s = false := hm _ (by simp [markersBefore])
    have h2 : containsL kwCreateTable s = false := hm _ (by simp [markersBefore])
    have h3 : containsL kwCreateFunction s = false := hm _ (by simp [markersBefore])
    have h4 : containsL kwCreateOrReplaceFunction s = false := hm _ (by simp [markersBefore])
    have h5 : containsL kwCreateTrigger s = true :=
      containsL_of_isPrefixL (by simpa [kindKW] using hpre)
    cases hx : extractTriggerName s with
    | none => simp [skipStmt, h1, h2, h3, h4, h5, hx, extractOf]
    | some n => simp [skipStmt, h1, h2, h3, h4, h5, hx, extractOf, catOf, catGet]
  · -- createPolicy
    have h1 : containsL kwCreateIndex s = false := hm _ (by simp [markersBefore])
    have h2 : containsL kwCreateTable s = false := hm _ (by simp [markersBefore])
    have h3 : containsL kwCreateFunction s = false := hm _ (by simp [markersBefore])
    have h4 : containsL kwCreateOrReplaceFunction s = false := hm _ (by simp [markersBefore])
    have h5 : containsL kwCreateTrigger s = false := hm _ (by simp [markersBefore])
    have h6 : containsL kwCreatePolicy s = true :=
      containsL_of_isPrefixL (by simpa [kindKW] using hpre)
    cases hx : extractPolicyMatch s with
    | none => simp [skipStmt, h1, h2, h3, h4, h5, h6, hx, extractOf]
    | some p => simp [skipStmt, h1, h2, h3, h4, h5, h6, hx, extractOf, catOf, catGet]
  · -- createType
    have h1 : containsL kwCreateIndex s = false := hm _ (by simp [markersBefore])
    have h2 : containsL kwCreateTable s = false := hm _ (by simp [markersBefore])
    have h3 : containsL kwCreateFunction s = false := hm _ (by simp [markersBefore])
    have h4 : containsL kwCreateOrReplaceFunction s = false := hm _ (by simp [markersBefore])
    have h5 : containsL kwCreateTrigger s = false := hm _ (by simp [markersBefore])
    have h6 : containsL kwCreatePolicy s = false := hm _ (by simp [markersBefore])
    have h7 : containsL kwCreateType s = true :=
      containsL_of_isPrefixL (by simpa [kindKW] using hpre)
    cases hx : extractTypeName s with
    | none => simp [skipStmt, h1, h2, h3, h4, h5, h6, h7, hx, extractOf]
    | some n => simp [skipStmt, h1, h2, h3, h4, h5, h6, h7, hx, extractOf, catOf, catGet]

/-- Witness for the amended C1 at a concrete INDEX statement whose name is
present in the indexes category: the iff instance holds (and indeed the
statement is dropped). -/
theorem claim_C1_witness :
    (SKind.createIndex ∈ filterKinds) ∧
      (isPrefixL (kindKW SKind.createIndex) c1ws = true) ∧
      (skipStmt c1ws c1wo = true ↔
        ∃ n, extractOf SKind.createIndex c1ws = some n ∧
          (catGet c1wo (catOf SKind.createIndex)).contains n = true) :=
  ⟨by decide, by decide,
    claim_C1_amended c1ws c1wo SKind.createIndex (by decide) (by decide) (by decide)⟩

/-- C5 counterexample: a function-creation statement that declares
`OR REPLACE` is nevertheless dropped by `filter_statements`, because its body
contains the substring `CREATE TABLE tmp5` and the dispatch sends it to the
TABLE branch, whose extracted name `tmp5` is present among the tables.  This
refutes "every statement declaring OR REPLACE is kept". -/
theorem claim_C5_counterexample :
    specKind c5s = SKind.createFunction ∧
      containsL kwOrReplace c5s = true ∧
      filter_statements [c5s] c5o = [] := by
  refine ⟨by decide, by decide, by decide⟩

/-- C5 amended: for every statement beginning with `CREATE FUNCTION` or
`CREATE OR REPLACE FUNCTION` whose text does not contain the earlier-checked
dispatch markers `CREATE INDEX` and `CREATE TABLE`, the filter drops it iff
the extracted function name is present in the functions category and the
text does not contain `OR REPLACE`; in particular such a statement declaring
`OR REPLACE` is always kept. -/
theorem claim_C5_amended (s : List Char) (o : ExistingObjects)
    (hpre : isFuncStart s = true)
    (h1 : containsL kwCreateIndex s = false)
    (h2 : containsL kwCreateTable s = false) :
    (skipStmt s o = true ↔
      ∃ n, extractFunctionName s = some n ∧ o.functions.contains n = true ∧
        containsL kwOrReplace s = false) ∧
      (containsL kwOrReplace s = true → skipStmt s o = false) := by
  have h3 : (containsL kwCreateFunction s || containsL kwCreateOrReplaceFunction s) = true := by
    simp only [isFuncStart, Bool.or_eq_true] at hpre
    rcases hpre with h | h
    · simp [containsL_of_isPrefixL h]
    · simp [containsL_of_isPrefixL h]
  constructor
  · cases hx : extractFunctionName s with
    | none => simp [skipStmt, h1, h2, h3, hx]
    | some n =>
      simp only [skipStmt, h1, h2, h3, hx]
      simp [Bool.and_eq_true, and_assoc]
  · intro hor
    cases hx : extractFunctionName s with
    | none => simp [skipStmt, h1, h2, h3, hx]
    | some n => simp [skipStmt, h1, h2, h3, hx, hor]

/-- Witness for the amended C5 at a concrete plain `CREATE FUNCTION`
statement whose name is present in the functions category: the iff instance
and the OR-REPLACE guard instance both hold. -/
theorem claim_C5_witness :
    (isFuncStart c5ws = true) ∧ (containsL kwCreateIndex c5ws = false) ∧
      (containsL kwCreateTable c5ws = false) ∧
      ((skipStmt c5ws c5wo = true ↔
          ∃ n, extractFunctionName c5ws = some n ∧ c5wo.functions.contains n = true ∧
            containsL kwOrReplace c5ws = false) ∧
        (containsL kwOrReplace c5ws = true → skipStmt c5ws c5wo = false)) :=
  ⟨by decide, by decide, by decide,
    claim_C5_amended c5ws c5wo (by decide) (by decide) (by decide)⟩

/-- C8 counterexample: a statement whose kind is TABLE (it begins with
`CREATE TABLE`) is checked against the indexes category, not the tables
category: with `i8` among the indexes it is dropped, while with `t8` among
the tables (and no index entry) it is kept.  This refutes "the category
consulted is the one deterministically selected by the statement's kind". -/
theorem claim_C8_counterexample :
    specKind c8s = SKind.createTable ∧
      consultedCategory c8s = some Cat.indexes ∧
      skipStmt c8s c8oIdx = true ∧
      skipStmt c8s c8oTbl = false := by
  refine ⟨by decide, by decide, by decide, by decide⟩

/-- C8 amended: every statement occasions at most one category lookup, namely
on the category selected by the first substring marker present in the text in
the filter's fixed dispatch order (`consultedCategory`), not by the leading
keyword: two snapshots that agree on that single category (and may differ
arbitrarily elsewhere) produce the same filtering decision. -/
theorem claim_C8_amended (s : List Char) (o₁ o₂ : ExistingObjects)
    (h : ∀ c, consultedCategory s = some c → catGet o₁ c = catGet o₂ c) :
    skipStmt s o₁ = skipStmt s o₂ := by
  by_cases h1 : containsL kwCreateIndex s = true
  · have he : o₁.indexes = o₂.indexes := h Cat.indexes (by simp [consultedCategory, h1])
    simp only [skipStmt, h1, if_pos rfl]
    cases extractIndexName s <;> simp [he]
  · by_cases h2 : containsL kwCreateTable s = true
    · have he : o₁.tables = o₂.tables := h Cat.tables (by simp [consultedCategory, h1, h2])
      simp only [skipStmt, h1, h2]
      cases extractTableName s <;> simp [he]
    · by_cases h3 : (containsL kwCreateFunction s || containsL kwCreateOrReplaceFunction s) = true
      · have he : o₁.functions = o₂.functions :=
          h Cat.functions (by simp [consultedCategory, h1, h2, h3])
        simp only [skipStmt, h1, h2, h3]
        cases extractFunctionName s <;> simp [he]
      · by_cases h4 : containsL kwCreateTrigger s = true
        · have he : o₁.triggers = o₂.triggers :=
            h Cat.triggers (by simp [consultedCategory, h1, h2, h3, h4])
          simp only [skipStmt, h1, h2, h3, h4]
          cases extractTriggerName s <;> simp [he]
        · by_cases h5 : containsL kwCreatePolicy s = true
          · have he : o₁.policies = o₂.policies :=
              h Cat.policies (by simp [consultedCategory, h1, h2, h3, h4, h5])
            simp only [skipStmt, h1, h2, h3, h4, h5]
            cases extractPolicyMatch s <;> simp [he]
          · by_cases h6 : containsL kwCreateType s = true
            · have he : o₁.types = o₂.types :=
                h Cat.types (by simp [consultedCategory, h1, h2, h3, h4, h5, h6])
              simp only [skipStmt, h1, h2, h3, h4, h5, h6]
              cases extractTypeName s <;> simp [he]
            · simp [skipStmt, h1, h2, h3, h4, h5, h6]

/-- Witness for the amended C8 at a concrete POLICY statement and two
snapshots that agree on the policies category but differ on tables,
functions and constraints: the filtering decision coincides. -/
theorem claim_C8_witness :
    consultedCategory c8ws = some Cat.policies ∧ skipStmt c8ws c8wo1 = skipStmt c8ws c8wo2 := by
  refine ⟨by decide, ?_⟩
  apply claim_C8_amended c8ws c8wo1 c8wo2
  intro c hc
  rw [show consultedCategory c8ws = some Cat.policies from by decide] at hc
  cases hc
  rfl

theorem keptLines_nil : keptLines [] = [] := rfl

theorem keptLines_cons_keep {l₀ : List Char} (ls : List (List Char))
    (h : keepLine (pyStrip l₀) = true) :
    keptLines (l₀ :: ls) = pyStrip l₀ :: keptLines ls := by
  simp [keptLines, List.filter_cons, h]

theorem keptLines_cons_skip {l₀ : List Char} (ls : List (List Char))
    (h : keepLine (pyStrip l₀) = false) :
    keptLines (l₀ :: ls) = keptLines ls := by
  simp [keptLines, List.filter_cons, h]

theorem exGo_all_skipped :
    ∀ (ls : List (List Char)) (acc : List (List Char)) (b : Bool),
      keptLines ls = [] → exGo acc b ls = if acc.isEmpty then [] else [acc] := by
  intro ls
  induction ls with
  | nil => intro acc b _; rfl
  | cons l₀ ls ih =>
    intro acc b h
    by_cases hkeep : keepLine (pyStrip l₀) = true
    · rw [keptLines_cons_keep ls hkeep] at h
      exact absurd h (by simp)
    · rw [keptLines_cons_skip ls (by simpa using hkeep)] at h
      rw [exGo, if_neg hkeep]
      exact ih acc b h

theorem exGo_count :
    ∀ (ls : List (List Char)) (acc : List (List Char)),
      (∀ l ∈ keptLines ls, isFuncStart l = false) →
      (exGo acc false ls).length =
        (if acc.isEmpty then 0 else 1) + countCreateLines (keptLines ls) := by
  intro ls
  induction ls with
  | nil =>
    intro acc _
    by_cases hacc : acc.isEmpty = true <;>
      simp [exGo, keptLines_nil, countCreateLines, hacc]
  | cons l₀ ls ih =>
    intro acc h
    by_cases hkeep : keepLine (pyStrip l₀) = true
    · rw [keptLines_cons_keep ls hkeep] at h ⊢
      have hfs : isFuncStart (pyStrip l₀) = false := h _ (List.mem_cons_self _ _)
      have hrest : ∀ l ∈ keptLines ls, isFuncStart l = false :=
        fun l hl => h l (List.mem_cons_of_mem _ hl)
      have hfsP : ¬isFuncStart (pyStrip l₀) = true := by simp [hfs]
      by_cases hcr : isPrefixL kwCreate (pyStrip l₀) = true
      · rw [exGo, if_pos hkeep, if_neg hfsP, if_neg Bool.false_ne_true, if_pos hcr]
        rw [List.length_append, ih [pyStrip l₀] hrest]
        by_cases hacc : acc.isEmpty = true <;>
          simp [hacc, countCreateLines, List.countP_cons, hcr] <;> omega
      · have hcrF : isPrefixL kwCreate (pyStrip l₀) = false := by simpa using hcr
        by_cases hacc : acc.isEmpty = true
        · rw [exGo, if_pos hkeep, if_neg hfsP, if_neg Bool.false_ne_true, if_neg hcr,
            if_pos hacc]
          rw [ih acc hrest]
          simp [hacc, countCreateLines, List.countP_cons, hcrF]
        · by_cases hsemi : endsWithL kwSemi (pyStrip l₀) = true
          · rw [exGo, if_pos hkeep, if_neg hfsP, if_neg Bool.false_ne_true, if_neg hcr,
              if_neg hacc, if_pos hsemi, List.length_cons]
            rw [ih [] hrest]
            simp [hacc, countCreateLines, List.countP_cons, hcrF]
            omega
          · rw [exGo, if_pos hkeep, if_neg hfsP, if_neg Bool.false_ne_true, if_neg hcr,
              if_neg hacc, if_neg hsemi]
            rw [ih (acc ++ [pyStrip l₀]) hrest]
            simp [hacc, countCreateLines, List.countP_cons, hcrF]
    · rw [keptLines_cons_skip ls (by simpa using hkeep)] at h ⊢
      rw [exGo, if_neg hkeep]
      exact ih acc h

/-- C2 counterexample: an input with two top-level `CREATE` blocks (two
processed lines beginning `CREATE`) and no line ending with the marker
`LANGUAGE plpgsql;` yields only one statement, because the first line starts
a function definition whose body — lacking the marker — absorbs the second
`CREATE` block.  This refutes "exactly K statements". -/
theorem claim_C2_counterexample :
    (∀ l ∈ keptLines c2lines, endsWithL kwMarker l = false) ∧
      countCreateLines (keptLines c2lines) = 2 ∧
      (extract_statements c2lines).length = 1 := by
  refine ⟨by decide, by decide, by decide⟩

/-- C2 amended: for every input with K top-level `CREATE` blocks (processed
lines beginning `CREATE`), no line ending with the marker `LANGUAGE plpgsql;`
and additionally no line beginning a function definition,
`extract_statements` returns exactly K statements. -/
theorem claim_C2_amended (ls : List (List Char))
    (hnf : ∀ l ∈ keptLines ls, isFuncStart l = false)
    (_hnm : ∀ l ∈ keptLines ls, endsWithL kwMarker l = false) :
    (extract_statements ls).length = countCreateLines (keptLines ls) := by
  unfold extract_statements
  rw [List.length_map, exGo_count ls [] hnf]
  simp

/-- Witness for the amended C2 at a two-block input without function lines:
exactly two statements come back. -/
theorem claim_C2_witness :
    (∀ l ∈ keptLines c2wlines, isFuncStart l = false) ∧
      (∀ l ∈ keptLines c2wlines, endsWithL kwMarker l = false) ∧
      (extract_statements c2wlines).length = countCreateLines (keptLines c2wlines) :=
  ⟨by decide, by decide,
    claim_C2_amended c2wlines (by decide) (by decide)⟩

theorem getLastD_irrel {α : Type} (l : List α) (h : l ≠ []) (d₁ d₂ : α) :
    l.getLastD d₁ = l.getLastD d₂ := by
  rw [List.getLastD_eq_getLast?, List.getLastD_eq_getLast?]
  cases hx : l.getLast? with
  | none => exact absurd (List.getLast?_eq_none_iff.mp hx) h
  | some b => rfl

theorem exGo_body :
    ∀ (ls : List (List Char)) (acc : List (List Char)), acc ≠ [] →
      (∀ l ∈ keptLines ls, isFuncStart l = false) →
      (∀ l ∈ (keptLines ls).dropLast, endsWithL kwMarker l = false) →
      (keptLines ls = [] ∨ endsWithL kwMarker ((keptLines ls).getLastD []) = true) →
      exGo acc true ls = [acc ++ keptLines ls] := by
  intro ls
  induction ls with
  | nil =>
    intro acc hacc _ _ _
    rw [keptLines_nil, List.append_nil, exGo,
      if_neg (by simp [List.isEmpty_iff, hacc])]
  | cons l₀ ls ih =>
    intro acc hacc hfs hmid hlast
    by_cases hkeep : keepLine (pyStrip l₀) = true
    · rw [keptLines_cons_keep ls hkeep] at hfs hmid hlast ⊢
      have hfm : isFuncStart (pyStrip l₀) = false := hfs _ (List.mem_cons_self _ _)
      have hfmP : ¬isFuncStart (pyStrip l₀) = true := by simp [hfm]
      cases hkl : keptLines ls with
      | nil =>
        have hmm : endsWithL kwMarker (pyStrip l₀) = true := by
          rcases hlast with habs | hm
          · exact absurd habs (by simp)
          · rw [hkl] at hm
            simpa using hm
        rw [exGo, if_pos hkeep, if_neg hfmP, if_pos rfl, if_pos hmm,
          exGo_all_skipped ls [] false hkl]
        simp [hkl]
      | cons x xs =>
        have hmm : endsWithL kwMarker (pyStrip l₀) = false := by
          apply hmid
          rw [hkl, List.dropLast_cons₂]
          exact List.mem_cons_self _ _
        have hmmP : ¬endsWithL kwMarker (pyStrip l₀) = true := by simp [hmm]
        have hfs2 : ∀ l ∈ keptLines ls, isFuncStart l = false :=
          fun l hl => hfs l (List.mem_cons_of_mem _ hl)
        have hmid2 : ∀ l ∈ (keptLines ls).dropLast, endsWithL kwMarker l = false := by
          intro l hl
          apply hmid
          rw [hkl] at hl
          rw [hkl, List.dropLast_cons₂]
          exact List.mem_cons_of_mem _ hl
        have hlast2 : keptLines ls = [] ∨
            endsWithL kwMarker ((keptLines ls).getLastD []) = true := by
          refine Or.inr ?_
          rcases hlast with habs | hm
          · exact absurd habs (by simp)
          · rw [hkl] at hm ⊢
            rw [List.getLastD_cons] at hm
            rw [getLastD_irrel (x :: xs) (by simp) [] (pyStrip l₀)]
            exact hm
        rw [exGo, if_pos hkeep, if_neg hfmP, if_pos rfl, if_neg hmmP,
          ih (acc ++ [pyStrip l₀]) (by simp) hfs2 hmid2 hlast2]
        simp [hkl]
    · rw [keptLines_cons_skip ls (by simpa using hkeep)] at hfs hmid hlast ⊢
      rw [exGo, if_neg hkeep]
      exact ih acc hacc hfs hmid hlast

theorem exGo_start (k0 : List Char) (rest : List (List Char))
    (h0 : isFuncStart k0 = true)
    (hint : ∀ l ∈ rest, isFuncStart l = false)
    (hmid : ∀ l ∈ rest.dropLast, endsWithL kwMarker l = false)
    (hend : endsWithL kwMarker (rest.getLastD k0) = true) :
    ∀ ls, keptLines ls = k0 :: rest → exGo [] false ls = [k0 :: rest] := by
  intro ls
  induction ls with
  | nil => intro h; simp [keptLines_nil] at h
  | cons l₀ ls ih =>
    intro h
    by_cases hkeep : keepLine (pyStrip l₀) = true
    · rw [keptLines_cons_keep ls hkeep] at h
      rw [List.cons.injEq] at h
      obtain ⟨h1, h2⟩ := h
      have hfs0 : isFuncStart (pyStrip l₀) = true := by rw [h1]; exact h0
      have hb : exGo [pyStrip l₀] true ls = [[pyStrip l₀] ++ keptLines ls] := by
        apply exGo_body ls [pyStrip l₀] (by simp)
        · rw [h2]; exact hint
        · rw [h2]; exact hmid
        · rw [h2]
          cases hr : rest with
          | nil => exact Or.inl rfl
          | cons r rs =>
            refine Or.inr ?_
            rw [getLastD_irrel (r :: rs) (by simp) [] k0]
            rw [hr] at hend
            exact hend
      rw [exGo, if_pos hkeep, if_pos hfs0, hb]
      simp [h1, h2]
    · rw [keptLines_cons_skip ls (by simpa using hkeep)] at h
      rw [exGo, if_neg hkeep]
      exact ih h

/-- C3: an input consisting of one block — its first processed line begins
`CREATE FUNCTION` or `CREATE OR REPLACE FUNCTION`, its last processed line
ends with `LANGUAGE plpgsql;`, and no other processed line does either (the
"one block" shape) — yields exactly one statement containing the whole block
(all its processed lines, joined), regardless of interior blank lines,
comment lines, or semicolons inside the body (which are dropped before the
kept-line sequence is formed). -/
theorem claim_C3_function_block (ls : List (List Char)) (k0 : List Char)
    (rest : List (List Char))
    (hk : keptLines ls = k0 :: rest)
    (h0 : isFuncStart k0 = true)
    (hint : ∀ l ∈ rest, isFuncStart l = false)
    (hmid : ∀ l ∈ rest.dropLast, endsWithL kwMarker l = false)
    (hend : endsWithL kwMarker (rest.getLastD k0) = true) :
    extract_statements ls = [joinNL (k0 :: rest)] := by
  unfold extract_statements
  rw [exGo_start k0 rest h0 hint hmid hend ls hk]
  rfl

/-- Witness for C3 at a concrete seven-line function block containing a blank
line, a comment line and interior semicolons: exactly one statement, the
whole block. -/
theorem claim_C3_witness :
    (keptLines c3wlines = c3k0 :: c3rest) ∧ (isFuncStart c3k0 = true) ∧
      (∀ l ∈ c3rest, isFuncStart l = false) ∧
      (∀ l ∈ c3rest.dropLast, endsWithL kwMarker l = false) ∧
      (endsWithL kwMarker (c3rest.getLastD c3k0) = true) ∧
      extract_statements c3wlines = [joinNL (c3k0 :: c3rest)] :=
  ⟨by decide, by decide, by decide, by decide, by decide,
    claim_C3_function_block c3wlines c3k0 c3rest (by decide) (by decide) (by decide)
      (by decide) (by decide)⟩

theorem isPrefixL_trans :
    ∀ (a b c : List Char), isPrefixL a b = true → isPrefixL b c = true →
      isPrefixL a c = true := by
  intro a
  induction a with
  | nil => intro b c _ _; cases c <;> simp [isPrefixL]
  | cons x xs ih =>
    intro b c hab hbc
    cases b with
    | nil => simp [isPrefixL] at hab
    | cons y ys =>
      cases c with
      | nil => simp [isPrefixL] at hbc
      | cons z zs =>
        simp [isPrefixL] at hab hbc ⊢
        obtain ⟨hxy, hab2⟩ := hab
        obtain ⟨hyz, hbc2⟩ := hbc
        exact ⟨hxy.trans hyz, ih ys zs hab2 hbc2⟩

theorem create_of_funcStart (l : List Char) (h : isFuncStart l = true) :
    isPrefixL kwCreate l = true := by
  simp only [isFuncStart, Bool.or_eq_true] at h
  rcases h with h | h
  · exact isPrefixL_trans kwCreate kwCreateOrReplaceFunction l (by decide) h
  · exact isPrefixL_trans kwCreate kwCreateFunction l (by decide) h

theorem exGo_flatten_sublist :
    ∀ (ls : List (List Char)) (acc : List (List Char)) (b : Bool),
      ((exGo acc b ls).flatten).Sublist (acc ++ keptLines ls) := by
  intro ls
  induction ls with
  | nil =>
    intro acc b
    rw [keptLines_nil, List.append_nil, exGo]
    by_cases hacc : acc.isEmpty = true
    · rw [if_pos hacc]
      exact List.nil_sublist acc
    · rw [if_neg hacc]
      simp
  | cons l₀ ls ih =>
    intro acc b
    by_cases hkeep : keepLine (pyStrip l₀) = true
    · rw [keptLines_cons_keep ls hkeep]
      by_cases hfs : isFuncStart (pyStrip l₀) = true
      · rw [exGo, if_pos hkeep, if_pos hfs, List.flatten_append]
        by_cases hacc : acc.isEmpty = true
        · have hae : acc = [] := by simpa [List.isEmpty_iff] using hacc
          rw [if_pos hacc, hae]
          simpa using ih [pyStrip l₀] true
        · rw [if_neg hacc]
          simp only [List.flatten_cons, List.flatten_nil, List.append_nil]
          exact (ih [pyStrip l₀] true).append_left acc
      · by_cases hb : b = true
        · subst hb
          by_cases hmk : endsWithL kwMarker (pyStrip l₀) = true
          · rw [exGo, if_pos hkeep, if_neg hfs, if_pos rfl, if_pos hmk,
              List.flatten_cons, List.append_assoc]
            refine List.Sublist.append_left ?_ acc
            simpa using (ih [] false).cons₂ (pyStrip l₀)
          · rw [exGo, if_pos hkeep, if_neg hfs, if_pos rfl, if_neg hmk]
            have h2 := ih (acc ++ [pyStrip l₀]) true
            rw [List.append_assoc] at h2
            simpa using h2
        · have hbf : b = false := by simpa using hb
          subst hbf
          by_cases hcr : isPrefixL kwCreate (pyStrip l₀) = true
          · rw [exGo, if_pos hkeep, if_neg hfs, if_neg Bool.false_ne_true, if_pos hcr,
              List.flatten_append]
            by_cases hacc : acc.isEmpty = true
            · have hae : acc = [] := by simpa [List.isEmpty_iff] using hacc
              rw [if_pos hacc, hae]
              simpa using ih [pyStrip l₀] false
            · rw [if_neg hacc]
              simp only [List.flatten_cons, List.flatten_nil, List.append_nil]
              exact (ih [pyStrip l₀] false).append_left acc
          · by_cases hacc : acc.isEmpty = true
            · have hae : acc = [] := by simpa [List.isEmpty_iff] using hacc
              rw [exGo, if_pos hkeep, if_neg hfs, if_neg Bool.false_ne_true, if_neg hcr,
                if_pos hacc, hae]
              exact (ih [] false).cons (pyStrip l₀)
            · by_cases hsm : endsWithL kwSemi (pyStrip l₀) = true
              · rw [exGo, if_pos hkeep, if_neg hfs, if_neg Bool.false_ne_true, if_neg hcr,
                  if_neg hacc, if_pos hsm, List.flatten_cons, List.append_assoc]
                refine List.Sublist.append_left ?_ acc
                simpa using (ih [] false).cons₂ (pyStrip l₀)
              · rw [exGo, if_pos hkeep, if_neg hfs, if_neg Bool.false_ne_true, if_neg hcr,
                  if_neg hacc, if_neg hsm]
                have h2 := ih (acc ++ [pyStrip l₀]) false
                rw [List.append_assoc] at h2
                simpa using h2
    · rw [keptLines_cons_skip ls (by simpa using hkeep), exGo, if_neg hkeep]
      exact ih acc b

theorem countCreateLines_nil : countCreateLines [] = 0 := rfl

theorem countCreateLines_append (a b : List (List Char)) :
    countCreateLines (a ++ b) = countCreateLines a + countCreateLines b := by
  simp [countCreateLines]

theorem countCreateLines_cons (l : List Char) (ls : List (List Char)) :
    countCreateLines (l :: ls) =
      countCreateLines ls + (if isPrefixL kwCreate l = true then 1 else 0) := by
  simp [countCreateLines, List.countP_cons]

theorem exGo_flatten_count :
    ∀ (ls : List (List Char)) (acc : List (List Char)) (b : Bool),
      countCreateLines ((exGo acc b ls).flatten) =
        countCreateLines acc + countCreateLines (keptLines ls) := by
  intro ls
  induction ls with
  | nil =>
    intro acc b
    rw [keptLines_nil, exGo]
    by_cases hacc : acc.isEmpty = true
    · have hae : acc = [] := by simpa [List.isEmpty_iff] using hacc
      rw [if_pos hacc, hae]
      rfl
    · rw [if_neg hacc]
      simp [countCreateLines]
  | cons l₀ ls ih =>
    intro acc b
    by_cases hkeep : keepLine (pyStrip l₀) = true
    · rw [keptLines_cons_keep ls hkeep]
      by_cases hfs : isFuncStart (pyStrip l₀) = true
      · have hcr : isPrefixL kwCreate (pyStrip l₀) = true := create_of_funcStart _ hfs
        rw [exGo, if_pos hkeep, if_pos hfs, List.flatten_append]
        by_cases hacc : acc.isEmpty = true
        · have hae : acc = [] := by simpa [List.isEmpty_iff] using hacc
          rw [if_pos hacc, hae]
          simp only [List.flatten_nil, List.nil_append, ih [pyStrip l₀] true,
            countCreateLines_nil, countCreateLines_cons, hcr]
          omega
        · rw [if_neg hacc]
          simp only [List.flatten_cons, List.flatten_nil, List.append_nil,
            countCreateLines_append, ih [pyStrip l₀] true,
            countCreateLines_nil, countCreateLines_cons, hcr]
          omega
      · by_cases hb : b = true
        · subst hb
          by_cases hmk : endsWithL kwMarker (pyStrip l₀) = true
          · rw [exGo, if_pos hkeep, if_neg hfs, if_pos rfl, if_pos hmk, List.flatten_cons]
            simp only [countCreateLines_append, ih [] false,
              countCreateLines_nil, countCreateLines_cons]
            omega
          · rw [exGo, if_pos hkeep, if_neg hfs, if_pos rfl, if_neg hmk,
              ih (acc ++ [pyStrip l₀]) true]
            simp only [countCreateLines_append, countCreateLines_nil, countCreateLines_cons]
            omega
        · have hbf : b = false := by simpa using hb
          subst hbf
          by_cases hcr : isPrefixL kwCreate (pyStrip l₀) = true
          · rw [exGo, if_pos hkeep, if_neg hfs, if_neg Bool.false_ne_true, if_pos hcr,
              List.flatten_append]
            by_cases hacc : acc.isEmpty = true
            · have hae : acc = [] := by simpa [List.isEmpty_iff] using hacc
              rw [if_pos hacc, hae]
              simp only [List.flatten_nil, List.nil_append, ih [pyStrip l₀] false,
                countCreateLines_nil, countCreateLines_cons, hcr]
              omega
            · rw [if_neg hacc]
              simp only [List.flatten_cons, List.flatten_nil, List.append_nil,
                countCreateLines_append, ih [pyStrip l₀] false,
                countCreateLines_nil, countCreateLines_cons, hcr]
              omega
          · have hcrF : isPrefixL kwCreate (pyStrip l₀) = false := by simpa using hcr
            by_cases hacc : acc.isEmpty = true
            · have hae : acc = [] := by simpa [List.isEmpty_iff] using hacc
              rw [exGo, if_pos hkeep, if_neg hfs, if_neg Bool.false_ne_true, if_neg hcr,
                if_pos hacc, hae, ih [] false]
              simp [countCreateLines_nil, countCreateLines_cons, hcrF]
            · by_cases hsm : endsWithL kwSemi (pyStrip l₀) = true
              · rw [exGo, if_pos hkeep, if_neg hfs, if_neg Bool.false_ne_true, if_neg hcr,
                  if_neg hacc, if_pos hsm, List.flatten_cons]
                simp [countCreateLines_append, ih [] false,
                  countCreateLines_nil, countCreateLines_cons, hcrF]
              · rw [exGo, if_pos hkeep, if_neg hfs, if_neg Bool.false_ne_true, if_neg hcr,
                  if_neg hacc, if_neg hsm, ih (acc ++ [pyStrip l₀]) false]
                simp [countCreateLines_append, countCreateLines_nil,
                  countCreateLines_cons, hcrF]
    · rw [keptLines_cons_skip ls (by simpa using hkeep), exGo, if_neg hkeep]
      exact ih acc b

/-- C7 counterexample: a bare `INSERT` line that follows a completed
`CREATE TABLE` statement is silently dropped even though it is not a leading
line — the claim's equation (statement lines = processed lines minus the
leading non-CREATE prefix) fails, because lines can be ignored whenever no
accumulator is open, not only before the first one opens. -/
theorem claim_C7_counterexample :
    (exGo [] false c7lines).flatten ≠
      (keptLines c7lines).dropWhile (fun l => !isPrefixL kwCreate l) := by
  decide

/-- C7 amended: the concatenation of the lines of the returned statements is
an order-preserving, duplication-free sublist of the stripped non-empty
non-comment input lines, and it retains every processed line that begins with
`CREATE` (the count of such lines is preserved); the omitted lines are
exactly non-CREATE lines processed while no accumulator is open — which can
happen after a completed statement, not only at the start of the input. -/
theorem claim_C7_amended (ls : List (List Char)) :
    ((exGo [] false ls).flatten).Sublist (keptLines ls) ∧
      countCreateLines ((exGo [] false ls).flatten) = countCreateLines (keptLines ls) := by
  constructor
  · simpa using exGo_flatten_sublist ls [] false
  · simpa [countCreateLines_nil] using exGo_flatten_count ls [] false
